import Mathlib

/-!
Verification of the World Bank life-expectancy chart script (`part_1_script.py`).

The development shallowly embeds the script's data pipeline:

* `RawTable` models the frame returned by `wb.download`: one row per
  (entity, year), one column per indicator code, cells are measurements or
  the absent-value marker `NaN` (modelled as `Option ℚ`, `none` = `NaN`).
* `selectIncome`, `renameCols`, `unstackLevel0`, `swapColLevels`,
  `sortColLevel0` model lines 105-115 of the script (filter to income-group
  rows, rename indicator columns to sex labels, pivot the entity level into
  the column axis, swap the two column levels, sort columns by level 0).
* `dropAllNaN` models `dropna(how='all')` and `lastYear` models
  `tail(1).index.item()` (lines 130-131); `none` models the `ValueError`
  raised by `.item()` on an empty frame.
* `assignColors`, `plotGraph` model `plot_graph` (lines 35-54): the palette
  setup with the buggy `color_map = color_map.append(color_map)` statement
  (Python's `list.append` returns `None`, so the loop variable is rebound to
  `None` and the next `len(color_map)` raises `TypeError`), the `zip` over
  series / labels / colors, and the per-series column resolution
  `data[s]` or `data[s[0]][s[1]]` (`Option` models `KeyError`).
-/

/-- A data series over the year-indexed rows: year to measurement or `NaN`. -/
abbrev SeriesFun := Int → Option ℚ

/-- The frame returned by `wb.download`: rows are keyed by (entity, year)
pairs drawn from `entities × years`, and each column is an indicator name
together with its cell lookup. -/
structure RawTable where
  entities : List String
  years : List Int
  cols : List (String × (String → SeriesFun))

/-- A frame with rows keyed by year and two-level column keys, as produced
by `unstack`: each column is a (level0, level1) key with its series. -/
structure Table2 where
  years : List Int
  cols : List ((String × String) × SeriesFun)

/-- The four income-group labels of line 104. -/
def income_groups : List String :=
  ["Low income", "Lower middle income", "Upper middle income", "High income"]

/-- The column renaming of line 108: indicator code to sex label; any other
column name is left unchanged (pandas `rename` semantics). -/
def col_names (c : String) : String :=
  if c = "SP.DYN.LE00.MA.IN" then "Male"
  else if c = "SP.DYN.LE00.FE.IN" then "Female"
  else c

/-- Line 105: `life_exp.select(lambda x: x[0] in income_groups)` keeps the
rows whose entity is one of the four income groups, in order. -/
def selectIncome (r : RawTable) : RawTable :=
  { r with entities := r.entities.filter (fun e => decide (e ∈ income_groups)) }

/-- Line 109 (first half): `rename(columns=col_names)`. -/
def renameCols (r : RawTable) : RawTable :=
  { r with cols := r.cols.map (fun c => (col_names c.1, c.2)) }

/-- Line 109 (second half): `unstack(level=0)` pivots the entity level of
the row key into the inner column level; the remaining row index is the
sorted deduplicated year values. -/
def unstackLevel0 (r : RawTable) : Table2 :=
  { years := List.insertionSort (· ≤ ·) r.years.dedup,
    cols := r.cols.flatMap (fun c => r.entities.map (fun e => ((c.1, e), c.2 e))) }

/-- Line 114: `swaplevel(0, 1, axis=1)` swaps the two column levels. -/
def swapColLevels (t : Table2) : Table2 :=
  { t with cols := t.cols.map (fun c => ((c.1.2, c.1.1), c.2)) }

/-- Lexicographic comparison of character lists by code point, the order in
which pandas sorts the string labels of a column level. -/
def charListLe : List Char → List Char → Bool
  | [], _ => true
  | _ :: _, [] => false
  | a :: as, b :: bs =>
    if a.toNat < b.toNat then true
    else if b.toNat < a.toNat then false
    else charListLe as bs

/-- Lexicographic string comparison. -/
def strLeB (s t : String) : Bool := charListLe s.data t.data

theorem charListLe_total : ∀ x y : List Char, charListLe x y = true ∨ charListLe y x = true := by
  intro x
  induction x with
  | nil => intro y; exact Or.inl rfl
  | cons a as ih =>
    intro y
    cases y with
    | nil => exact Or.inr rfl
    | cons b bs =>
      rcases Nat.lt_trichotomy a.toNat b.toNat with h | h | h
      · left
        simp [charListLe, h]
      · rcases ih bs with h2 | h2
        · left
          simp [charListLe, h, h2]
        · right
          simp [charListLe, h.symm, h2]
      · right
        simp [charListLe, h]

theorem charListLe_trans :
    ∀ x y z : List Char, charListLe x y = true → charListLe y z = true →
      charListLe x z = true := by
  intro x
  induction x with
  | nil => intro y z _ _; rfl
  | cons a as ih =>
    intro y z h1 h2
    cases y with
    | nil => simp [charListLe] at h1
    | cons b bs =>
      cases z with
      | nil => simp [charListLe] at h2
      | cons c cs =>
        simp only [charListLe] at h1 h2 ⊢
        rcases Nat.lt_trichotomy a.toNat b.toNat with hab | hab | hab
        · rcases Nat.lt_trichotomy b.toNat c.toNat with hbc | hbc | hbc
          · simp [show a.toNat < c.toNat by omega]
          · simp [show a.toNat < c.toNat by omega]
          · simp [show ¬ b.toNat < c.toNat by omega, hbc] at h2
        · simp [show ¬ a.toNat < b.toNat by omega, show ¬ b.toNat < a.toNat by omega] at h1
          rcases Nat.lt_trichotomy b.toNat c.toNat with hbc | hbc | hbc
          · simp [show a.toNat < c.toNat by omega]
          · simp [show ¬ b.toNat < c.toNat by omega, show ¬ c.toNat < b.toNat by omega] at h2
            simp [show ¬ a.toNat < c.toNat by omega, show ¬ c.toNat < a.toNat by omega]
            exact ih bs cs h1 h2
          · simp [show ¬ b.toNat < c.toNat by omega, hbc] at h2
        · simp [show ¬ a.toNat < b.toNat by omega, hab] at h1

theorem strLeB_total (s t : String) : strLeB s t = true ∨ strLeB t s = true :=
  charListLe_total s.data t.data

theorem strLeB_trans {s t u : String} (h1 : strLeB s t = true) (h2 : strLeB t u = true) :
    strLeB s u = true :=
  charListLe_trans s.data t.data u.data h1 h2

/-- Lexicographic order on two-level column keys: level 0 first, then
level 1 (`sortlevel` sorts by the chosen level and then the remaining one). -/
def keyLE (a b : String × String) : Prop :=
  strLeB a.1 b.1 = true ∧ (strLeB b.1 a.1 = true → strLeB a.2 b.2 = true)

instance : DecidableRel keyLE := fun a b =>
  inferInstanceAs (Decidable (_ ∧ _))

/-- The column order used by `sortlevel(0, axis=1)`: compare column keys. -/
def colLE (a b : (String × String) × SeriesFun) : Prop := keyLE a.1 b.1

instance : DecidableRel colLE := fun a b => inferInstanceAs (Decidable (keyLE _ _))

instance : IsTotal ((String × String) × SeriesFun) colLE where
  total a b := by
    unfold colLE keyLE
    rcases strLeB_total a.1.1 b.1.1 with h | h
    · by_cases h2 : strLeB b.1.1 a.1.1 = true
      · rcases strLeB_total a.1.2 b.1.2 with h3 | h3
        · exact Or.inl ⟨h, fun _ => h3⟩
        · exact Or.inr ⟨h2, fun _ => h3⟩
      · exact Or.inl ⟨h, fun hc => absurd hc h2⟩
    · by_cases h2 : strLeB a.1.1 b.1.1 = true
      · rcases strLeB_total a.1.2 b.1.2 with h3 | h3
        · exact Or.inl ⟨h2, fun _ => h3⟩
        · exact Or.inr ⟨h, fun _ => h3⟩
      · exact Or.inr ⟨h, fun hc => absurd hc h2⟩

instance : IsTrans ((String × String) × SeriesFun) colLE where
  trans a b c hab hbc := by
    obtain ⟨h1, h1'⟩ := hab
    obtain ⟨h2, h2'⟩ := hbc
    refine ⟨strLeB_trans h1 h2, fun hca => ?_⟩
    have hba : strLeB b.1.1 a.1.1 = true := strLeB_trans h2 hca
    have hcb : strLeB c.1.1 b.1.1 = true := strLeB_trans hca h1
    exact strLeB_trans (h1' hba) (h2' hcb)

/-- Line 115: `sortlevel(0, axis=1)` sorts the columns by their key. -/
def sortColLevel0 (t : Table2) : Table2 :=
  { t with cols := List.insertionSort colLE t.cols }

/-- The whole reshaping pipeline of lines 105-115. -/
def reshape (r : RawTable) : Table2 :=
  sortColLevel0 (swapColLevels (unstackLevel0 (renameCols (selectIncome r))))

/-- Line 130: `dropna(how='all')` keeps the rows that have at least one
present (non-`NaN`) cell. -/
def dropAllNaN (t : Table2) : Table2 :=
  { t with years := t.years.filter (fun y => t.cols.any (fun c => (c.2 y).isSome)) }

/-- Line 131: `tail(1).index.item()`, the index value of the last row;
`none` models the `ValueError` raised on an empty frame. -/
def lastYear (t : Table2) : Option Int := t.years.getLast?

/-! ### Chart renderer (`plot_graph`, lines 35-54) -/

/-- The fixed palette of line 38 (Tableau 10 / Tableau 10 Medium hues). -/
def color_map : List String :=
  ["#e41a1c", "#f4a582", "#377eb8", "#92c5de", "#4daf4a", "#a6d96a", "#984ea3", "#c2a5cf"]

/-- The state of the Python variable `color_map` inside the `while` loop of
lines 39-40: a list, or `None` after `color_map = color_map.append(color_map)`
rebinds it to the `None` returned by `list.append`. -/
inductive PyColors where
  | lst (xs : List String)
  | pynone

/-- Python `len`: raises `TypeError` on `None`. -/
def pyLen : PyColors → Except String Nat
  | PyColors.lst xs => Except.ok xs.length
  | PyColors.pynone => Except.error "TypeError: object of type NoneType has no len()"

/-- Python slicing `color_map[:n]`: raises `TypeError` on `None`. -/
def pySlice (cm : PyColors) (n : Nat) : Except String (List String) :=
  match cm with
  | PyColors.lst xs => Except.ok (xs.take n)
  | PyColors.pynone => Except.error "TypeError: NoneType object is not subscriptable"

/-- The `while len(y_series) > len(color_map)` loop of lines 39-40.  Each
iteration executes `color_map = color_map.append(color_map)`, leaving
`color_map` bound to `None`; the next condition check then evaluates
`len(None)`.  Fuel-indexed to express the loop as a total function. -/
def colorWhile : Nat → Nat → PyColors → Except String PyColors
  | 0, _, _ => Except.error "nontermination"
  | fuel + 1, n, cm =>
    match pyLen cm with
    | Except.error e => Except.error e
    | Except.ok len => if len < n then colorWhile fuel n PyColors.pynone else Except.ok cm

/-- Lines 38-41 of `plot_graph`: palette setup and `colors = color_map[:len(y_series)]`. -/
def assignColors (n : Nat) : Except String (List String) :=
  match colorWhile (n + 1) n (PyColors.lst color_map) with
  | Except.error e => Except.error e
  | Except.ok cm => pySlice cm n

/-- A series selector (line 32, lines 50-54): either a single column key or
a two-level (income group, sex) key. -/
inductive Sel where
  | single (k : String)
  | pair (g s : String)

/-- One drawn line: its legend label, its color and its y-values. -/
structure PlotLine where
  label : String
  color : String
  values : List (Option ℚ)

/-- `data[g]` on a two-level-column frame: the columns whose level-0 key is
`g`, with that level stripped. -/
def outerSelect (t : Table2) (g : String) : List (String × SeriesFun) :=
  (t.cols.filter (fun c => decide (c.1.1 = g))).map (fun c => (c.1.2, c.2))

/-- `data[s[0]][s[1]]` (line 54): select level 0, then the inner column, and
read the series values along the row index; `none` models `KeyError`. -/
def resolvePair (t : Table2) (g s : String) : Option (List (Option ℚ)) :=
  ((outerSelect t g).find? (fun c => decide (c.1 = s))).map (fun c => t.years.map c.2)

/-- Direct lookup of a full two-level column key, reading the series values
along the row index. -/
def lookupPair (t : Table2) (k : String × String) : Option (List (Option ℚ)) :=
  (t.cols.find? (fun c => decide (c.1 = k))).map (fun c => t.years.map c.2)

/-- The lines drawn by one `ax.plot` call (lines 50-54): a two-level
selector draws the single resolved column; a single-key selector `data[s]`
on the two-level frame yields the sub-frame of matching columns and draws
one line per column, all sharing the label and color. -/
def selLines (t : Table2) (s : Sel) (lab col : String) : Option (List PlotLine) :=
  match s with
  | Sel.single k =>
    match outerSelect t k with
    | [] => none
    | sub => some (sub.map (fun c => ⟨lab, col, t.years.map c.2⟩))
  | Sel.pair g s2 => (resolvePair t g s2).map (fun v => [⟨lab, col, v⟩])

/-- Python `zip` over three lists: truncates to the shortest. -/
def zip3 {α β γ : Type} : List α → List β → List γ → List (α × β × γ)
  | a :: as, b :: bs, c :: cs => (a, b, c) :: zip3 as bs cs
  | _, _, _ => []

/-- The `for s,l,c in zip(y_series, labels, colors)` loop of lines 48-54,
collecting the drawn lines in order; a failed column resolution models the
`KeyError` that aborts the call. -/
def drawLoop (t : Table2) : List (Sel × String × String) → Except String (List PlotLine)
  | [] => Except.ok []
  | triple :: rest =>
    match selLines t triple.1 triple.2.1 triple.2.2 with
    | none => Except.error "KeyError"
    | some ls =>
      match drawLoop t rest with
      | Except.error e => Except.error e
      | Except.ok tail => Except.ok (ls ++ tail)

/-- `plot_graph` (lines 35-54), reduced to its data behavior: assign colors
from the palette, then draw one batch of lines per zipped
(selector, label, color) triple. -/
def plotGraph (t : Table2) (y_series : List Sel) (labels : List String) :
    Except String (List PlotLine) :=
  match assignColors y_series.length with
  | Except.error e => Except.error e
  | Except.ok colors => drawLoop t (zip3 y_series labels colors)

/-- The value sequence a resolvable pair selector plots (empty for the
unused single-selector shape). -/
def resolveValues (t : Table2) (s : Sel) : List (Option ℚ) :=
  match s with
  | Sel.single _ => []
  | Sel.pair g s2 => (resolvePair t g s2).getD []

/-- A selector that is a two-level key present in the table, so that
`data[s[0]][s[1]]` succeeds and draws exactly one line. -/
def isPairResolvable (t : Table2) (s : Sel) : Bool :=
  match s with
  | Sel.single _ => false
  | Sel.pair g s2 => (resolvePair t g s2).isSome

/-! ### Helper lemmas -/

theorem filter_idem {α : Type} (p : α → Bool) (l : List α) :
    (l.filter p).filter p = l.filter p := by
  induction l with
  | nil => rfl
  | cons a t ih =>
    by_cases h : p a
    · simp [List.filter_cons, h, ih]
    · simp [List.filter_cons, h, ih]

theorem c5_helper_cols_drop (t : Table2) : (dropAllNaN t).cols = t.cols := rfl

/-! ### Concrete instances -/

/-- A small raw table: one ordinary country and two income groups, with the
two life-expectancy indicator columns and every cell present. -/
def rawS : RawTable :=
  { entities := ["Aruba", "Low income", "High income"],
    years := [2001, 2000],
    cols := [("SP.DYN.LE00.MA.IN", fun e y => some (if e = "Low income" then 50 else 70)),
             ("SP.DYN.LE00.FE.IN", fun e y => some (if e = "Low income" then 55 else 75))] }

/-- The reshaped and cleaned small table. -/
def cleanS : Table2 := dropAllNaN (reshape rawS)

/-- The raw table of the end-to-end scenario: the four income-group rows,
the two indicator columns, years 1960-2017, and all cells absent exactly in
the 2016 and 2017 rows. -/
def rawEx7 : RawTable :=
  { entities := income_groups,
    years := (List.range 58).map (fun i => 1960 + (i : Int)),
    cols := [("SP.DYN.LE00.MA.IN", fun e y => if y ≤ 2015 then some 60 else none),
             ("SP.DYN.LE00.FE.IN", fun e y => if y ≤ 2015 then some 65 else none)] }

/-- The reshaped and cleaned scenario table. -/
def cleanEx7 : Table2 := dropAllNaN (reshape rawEx7)

/-- The eight (income group, sex) series selectors of lines 153-156. -/
def series_data : List Sel :=
  [Sel.pair "Low income" "Female", Sel.pair "Low income" "Male",
   Sel.pair "Lower middle income" "Female", Sel.pair "Lower middle income" "Male",
   Sel.pair "Upper middle income" "Female", Sel.pair "Upper middle income" "Male",
   Sel.pair "High income" "Female", Sel.pair "High income" "Male"]

/-- The eight legend labels of lines 157-160. -/
def series_labels : List String :=
  ["Low income economies (female)", "Low income economies (male)",
   "Lower middle income economies (female)", "Lower middle income economies (male)",
   "Upper middle income economies (female)", "Upper middle income economies (male)",
   "High income economies (female)", "High income economies (male)"]

/-! ### Claim theorems -/

/-- Claim C1 (code bug): with nine series the palette setup of lines 38-41
does not cycle the palette as the comment on line 36 promises; the statement
`color_map = color_map.append(color_map)` rebinds `color_map` to `None`, so
re-evaluating the loop condition raises `TypeError` instead of assigning
nine colors. -/
theorem c1_palette_error_at_nine :
    assignColors 9 = Except.error "TypeError: object of type NoneType has no len()" := rfl

/-- Claim C5: the all-absent-row drop of line 130 is idempotent: dropping
twice yields the same table as dropping once. -/
theorem c5_drop_idempotent (t : Table2) : dropAllNaN (dropAllNaN t) = dropAllNaN t :=
  congrArg (fun l => Table2.mk l t.cols) (filter_idem _ t.years)

/-- Claim C10: `dropna(how='all')` keeps exactly the rows that have at least
one present cell, wherever they occur, and the kept rows stay in their
original relative order (the kept row list is a sublist of the original). -/
theorem c10_drop_semantics (t : Table2) (y : Int) :
    (y ∈ (dropAllNaN t).years ↔ y ∈ t.years ∧ ∃ c ∈ t.cols, (c.2 y).isSome = true) ∧
    (dropAllNaN t).years.Sublist t.years := by
  constructor
  · simp [dropAllNaN, List.mem_filter, List.any_eq_true]
  · exact List.filter_sublist t.years

/-- The unsorted column list after the rename, unstack and swap steps:
one column per (income-group entity, renamed indicator) pair. -/
def preCols (r : RawTable) : List ((String × String) × SeriesFun) :=
  r.cols.flatMap (fun c =>
    (r.entities.filter (fun e => decide (e ∈ income_groups))).map
      (fun e => ((e, col_names c.1), c.2 e)))

theorem swap_unstack_cols (r : RawTable) :
    (swapColLevels (unstackLevel0 (renameCols (selectIncome r)))).cols = preCols r := by
  simp only [swapColLevels, unstackLevel0, renameCols, selectIncome, preCols,
        List.map_flatMap, List.flatMap_map, List.map_map, Function.comp]
  rfl

theorem reshape_cols_eq (r : RawTable) :
    (reshape r).cols = List.insertionSort colLE (preCols r) := by
  rw [reshape]
  show List.insertionSort colLE (swapColLevels (unstackLevel0 (renameCols (selectIncome r)))).cols = _
  rw [swap_unstack_cols]

theorem reshape_cols_perm (r : RawTable) :
    List.Perm (reshape r).cols (preCols r) := by
  rw [reshape_cols_eq]
  exact List.perm_insertionSort _ _

theorem reshape_cols_sorted (r : RawTable) :
    (reshape r).cols.Pairwise colLE := by
  rw [reshape_cols_eq]
  exact List.sorted_insertionSort _ _

theorem mem_preCols {r : RawTable} {x : (String × String) × SeriesFun} :
    x ∈ preCols r ↔
      ∃ c ∈ r.cols, ∃ e ∈ r.entities, e ∈ income_groups ∧ x = ((e, col_names c.1), c.2 e) := by
  simp only [preCols, List.mem_flatMap, List.mem_map, List.mem_filter, decide_eq_true_eq]
  constructor
  · rintro ⟨c, hc, e, ⟨he, hg⟩, hx⟩
    exact ⟨c, hc, e, he, hg, hx.symm⟩
  · rintro ⟨c, hc, e, he, hg, hx⟩
    exact ⟨c, hc, e, ⟨he, hg⟩, hx.symm⟩

/-- Claim C2 counterexample: in the table reshaped by lines 105-115, the
column keys are (income group, sex) pairs, not (sex, income group) pairs:
the key `("High income", "Female")` occurs, and its outer component is not
a sex label. -/
theorem c2_counterexample :
    ("High income", "Female") ∈ (reshape rawS).cols.map Prod.fst ∧
    "High income" ∉ ["Female", "Male"] := by
  constructor
  · decide
  · decide

/-- Claim C2 (amended): after the swap and sort steps, income group is the
outer column level and sex the inner one: every column key pairs an income
group with a renamed indicator label, and the columns are sorted by the
outer level (income group). -/
theorem c2_amended (r : RawTable) :
    ((reshape r).cols.map Prod.fst).all
        (fun k => decide (k.1 ∈ income_groups) &&
          decide (k.2 ∈ r.cols.map (fun c => col_names c.1))) = true ∧
    (reshape r).cols.Pairwise (fun a b => strLeB a.1.1 b.1.1 = true) := by
  constructor
  · rw [List.all_eq_true]
    intro k hk
    rw [List.mem_map] at hk
    obtain ⟨x, hx, rfl⟩ := hk
    have hx' := (reshape_cols_perm r).mem_iff.mp hx
    obtain ⟨c, hc, e, _, hg, rfl⟩ := mem_preCols.mp hx'
    simp only [Bool.and_eq_true, decide_eq_true_eq]
    exact ⟨hg, List.mem_map.mpr ⟨c, hc, rfl⟩⟩
  · exact (reshape_cols_sorted r).imp (fun {a b} h => h.1)

theorem find_outer_inner (g s : String) (l : List ((String × String) × SeriesFun)) :
    (((l.filter (fun c => decide (c.1.1 = g))).map
        (fun c => (c.1.2, c.2))).find? (fun c => decide (c.1 = s))).map Prod.snd =
      (l.find? (fun c => decide (c.1 = (g, s)))).map Prod.snd := by
  induction l with
  | nil => rfl
  | cons a t ih =>
    by_cases hg : a.1.1 = g
    · by_cases hs : a.1.2 = s
      · have hk : a.1 = (g, s) := by
          rw [← hg, ← hs]
        simp [List.filter_cons, List.find?_cons, hg, hs, hk]
      · have hk : a.1 ≠ (g, s) := by
          intro h
          exact hs (congrArg Prod.snd h)
        simp only [List.filter_cons, List.find?_cons] at ih ⊢
        simp [hg, hs, hk] at ih ⊢
        exact ih
    · have hk : a.1 ≠ (g, s) := by
        intro h
        exact hg (congrArg Prod.fst h)
      simp only [List.filter_cons, List.find?_cons] at ih ⊢
      simp [hg, hk] at ih ⊢
      exact ih

/-- Claim C3 counterexample: on the concrete clean table, resolving the
selector `("Low income", "Female")` as `data[s[0]][s[1]]` succeeds, but
looking up the column keyed `("Female", "Low income")` — the (sex, income
group) order the claim documents — does not give the same result (it fails,
because sex is not the outer level). -/
theorem c3_counterexample :
    resolvePair cleanS "Low income" "Female" ≠ lookupPair cleanS ("Female", "Low income") := by
  decide

/-- Claim C3 (amended): for every table with two-level columns, resolving a
selector (G, S) as `data[G][S]` (line 54) yields the same value sequence as
directly looking up the two-level column (G, S) — income group outer, sex
inner, the actual level order after the swap/sort step. -/
theorem c3_amended (t : Table2) (g s : String) :
    resolvePair t g s = lookupPair t (g, s) := by
  unfold resolvePair lookupPair outerSelect
  have h1 : (fun c : String × SeriesFun => t.years.map c.2) =
      (fun f : SeriesFun => t.years.map f) ∘ Prod.snd := rfl
  have h2 : (fun c : (String × String) × SeriesFun => t.years.map c.2) =
      (fun f : SeriesFun => t.years.map f) ∘ Prod.snd := rfl
  rw [h1, h2, ← Option.map_map, ← Option.map_map, find_outer_inner]

/-- Reading one cell of a two-level-column frame: row `y`, column key `k`. -/
def cellAt (t : Table2) (y : Int) (k : String × String) : Option ℚ :=
  match t.cols.find? (fun c => decide (c.1 = k)) with
  | some c => c.2 y
  | none => none

theorem reshape_years_eq (r : RawTable) :
    (reshape r).years = List.insertionSort (· ≤ ·) r.years.dedup := rfl

theorem reshape_years_perm (r : RawTable) :
    List.Perm (reshape r).years r.years.dedup := by
  rw [reshape_years_eq]
  exact List.perm_insertionSort _ _

theorem sorted_last_is_max :
    ∀ l : List Int, l.Pairwise (· ≤ ·) → l ≠ [] →
      ∃ lv, l.getLast? = some lv ∧ lv ∈ l ∧ ∀ y ∈ l, y ≤ lv := by
  intro l
  induction l with
  | nil => intro _ h; exact absurd rfl h
  | cons a t ih =>
    intro hp _
    cases t with
    | nil =>
      refine ⟨a, rfl, List.mem_singleton_self a, ?_⟩
      intro y hy
      rw [List.mem_singleton] at hy
      exact le_of_eq hy
    | cons b u =>
      obtain ⟨lv, h1, h2, h3⟩ := ih hp.of_cons (by simp)
      refine ⟨lv, ?_, List.mem_cons_of_mem a h2, ?_⟩
      · rw [List.getLast?_cons_cons]
        exact h1
      · intro y hy
        rcases List.mem_cons.mp hy with rfl | hy'
        · exact List.rel_of_pairwise_cons hp h2
        · exact h3 y hy'

/-- Claim C4: the "last year" of line 131 (`tail(1).index.item()` after the
drop) is the maximum row-index value among the rows remaining after the
drop, provided some row remains (on an empty frame `.item()` raises). -/
theorem c4_last_year_max (r : RawTable)
    (h : (dropAllNaN (reshape r)).years ≠ []) :
    ∃ lv, lastYear (dropAllNaN (reshape r)) = some lv ∧
      lv ∈ (dropAllNaN (reshape r)).years ∧
      ∀ y ∈ (dropAllNaN (reshape r)).years, y ≤ lv := by
  have hs : (reshape r).years.Pairwise (· ≤ ·) := by
    rw [reshape_years_eq]
    exact List.sorted_insertionSort _ _
  exact sorted_last_is_max _ (hs.filter _) h

/-- Witness for C4 at the concrete small table. -/
theorem c4_witness :
    (dropAllNaN (reshape rawS)).years ≠ [] ∧
    ∃ lv, lastYear (dropAllNaN (reshape rawS)) = some lv ∧
      lv ∈ (dropAllNaN (reshape rawS)).years ∧
      ∀ y ∈ (dropAllNaN (reshape rawS)).years, y ≤ lv :=
  ⟨by decide, c4_last_year_max rawS (by decide)⟩

/-- Claim C7: the end-to-end scenario of lines 104-131: for the raw table
with the two indicator columns, the four income-group rows, years 1960-2017
and all cells absent exactly in 2016 and 2017, the clean table has rows
exactly 1960-2015, exactly 8 data columns, and "last year" 2015. -/
theorem c7_end_to_end :
    cleanEx7.years = (List.range 56).map (fun i => 1960 + (i : Int)) ∧
    cleanEx7.cols.length = 8 ∧
    lastYear cleanEx7 = some 2015 :=
  ⟨by decide, by decide, by decide⟩

theorem preCols_keys (r : RawTable) :
    (preCols r).map Prod.fst
      = r.cols.flatMap (fun c =>
          (r.entities.filter (fun e => decide (e ∈ income_groups))).map
            (fun e => (e, col_names c.1))) := by
  simp only [preCols, List.map_flatMap, List.map_map]
  rfl

theorem reshape_keys_nodup (r : RawTable) (hE : r.entities.Nodup)
    (hC : (r.cols.map (fun c => col_names c.1)).Nodup) :
    ((reshape r).cols.map Prod.fst).Nodup := by
  have hperm : List.Perm ((reshape r).cols.map Prod.fst) ((preCols r).map Prod.fst) :=
    (reshape_cols_perm r).map Prod.fst
  rw [hperm.nodup_iff, preCols_keys, List.nodup_flatMap]
  constructor
  · intro c _
    refine List.Nodup.map ?_ (hE.filter _)
    intro e1 e2 h
    exact congrArg Prod.fst h
  · have hC' := List.pairwise_map.mp hC
    refine hC'.imp ?_
    intro c d hne x hx1 hx2
    rw [List.mem_map] at hx1 hx2
    obtain ⟨e1, _, rfl⟩ := hx1
    obtain ⟨e2, _, h⟩ := hx2
    exact hne (congrArg Prod.snd h).symm

theorem find?_eq_of_nodup_keys {α β : Type} [DecidableEq α] :
    ∀ {l : List (α × β)}, (l.map Prod.fst).Nodup → ∀ {k : α} {v : β}, (k, v) ∈ l →
      l.find? (fun c => decide (c.1 = k)) = some (k, v) := by
  intro l
  induction l with
  | nil =>
    intro _ k v h
    exact absurd h (List.not_mem_nil _)
  | cons a t ih =>
    intro hn k v hm
    rw [List.map_cons, List.nodup_cons] at hn
    rcases List.mem_cons.mp hm with rfl | hm'
    · rw [List.find?_cons]
      simp
    · have hk : a.1 ≠ k := by
        intro h
        exact hn.1 (h ▸ List.mem_map.mpr ⟨(k, v), hm', rfl⟩)
      rw [List.find?_cons]
      simp only [hk, decide_eq_true_eq, if_false]
      simp [hk]
      exact ih hn.2 hm'

/-- Claim C6: the reshaping of lines 105-115 is a bijection on cell values:
positions in the reshaped table are distinct (no duplicate column keys, no
duplicate years), the cell of the reshaped table at row `y` and column
`(g, col_names c)` is exactly the raw cell at row `(g, y)` and column `c`
for each income-group entity `g`, every reshaped column key comes from an
income-group entity and a renamed raw column, and the reshaped rows are
exactly the raw years. -/
theorem c6_reshape_bijection (r : RawTable)
    (hE : r.entities.Nodup)
    (hC : (r.cols.map (fun c => col_names c.1)).Nodup) :
    ((reshape r).cols.map Prod.fst).Nodup ∧
    (reshape r).years.Nodup ∧
    (∀ g ∈ r.entities, g ∈ income_groups →
      ∀ c ∈ r.cols, ∀ y : Int, cellAt (reshape r) y (g, col_names c.1) = c.2 g y) ∧
    (∀ k ∈ (reshape r).cols.map Prod.fst,
      k.1 ∈ r.entities ∧ k.1 ∈ income_groups ∧ ∃ c ∈ r.cols, col_names c.1 = k.2) ∧
    (∀ y : Int, y ∈ (reshape r).years ↔ y ∈ r.years) := by
  refine ⟨reshape_keys_nodup r hE hC, ?_, ?_, ?_, ?_⟩
  · exact (reshape_years_perm r).nodup_iff.mpr (List.nodup_dedup _)
  · intro g hgE hgI c hc y
    have hmem : ((g, col_names c.1), c.2 g) ∈ (reshape r).cols :=
      (reshape_cols_perm r).mem_iff.mpr
        (mem_preCols.mpr ⟨c, hc, g, hgE, hgI, rfl⟩)
    have hfind := find?_eq_of_nodup_keys (reshape_keys_nodup r hE hC) hmem
    unfold cellAt
    rw [hfind]
  · intro k hk
    rw [List.mem_map] at hk
    obtain ⟨x, hx, rfl⟩ := hk
    obtain ⟨c, hc, e, he, hg, rfl⟩ := mem_preCols.mp ((reshape_cols_perm r).mem_iff.mp hx)
    exact ⟨he, hg, c, hc, rfl⟩
  · intro y
    rw [(reshape_years_perm r).mem_iff, List.mem_dedup]

/-- Witness for C6 at the concrete small table. -/
theorem c6_witness :
    rawS.entities.Nodup ∧
    (rawS.cols.map (fun c => col_names c.1)).Nodup ∧
    (((reshape rawS).cols.map Prod.fst).Nodup ∧
     (reshape rawS).years.Nodup ∧
     (∀ g ∈ rawS.entities, g ∈ income_groups →
       ∀ c ∈ rawS.cols, ∀ y : Int, cellAt (reshape rawS) y (g, col_names c.1) = c.2 g y) ∧
     (∀ k ∈ (reshape rawS).cols.map Prod.fst,
       k.1 ∈ rawS.entities ∧ k.1 ∈ income_groups ∧ ∃ c ∈ rawS.cols, col_names c.1 = k.2) ∧
     (∀ y : Int, y ∈ (reshape rawS).years ↔ y ∈ rawS.years)) :=
  ⟨by decide, by decide, c6_reshape_bijection rawS (by decide) (by decide)⟩

theorem assignColors_le {n : Nat} (h : n ≤ 8) :
    assignColors n = Except.ok (color_map.take n) := by
  have h8 : ¬ (color_map.length < n) := by
    simp only [color_map, List.length_cons, List.length_nil]
    omega
  unfold assignColors
  rw [show colorWhile (n + 1) n (PyColors.lst color_map)
      = if color_map.length < n then colorWhile n n PyColors.pynone
        else Except.ok (PyColors.lst color_map) from rfl,
    if_neg h8]
  rfl

theorem zip3_length {α β γ : Type} :
    ∀ (a : List α) (b : List β) (c : List γ),
      (zip3 a b c).length = min a.length (min b.length c.length) := by
  intro a
  induction a with
  | nil => intro b c; simp [zip3]
  | cons x as ih =>
    intro b c
    cases b with
    | nil => simp [zip3]
    | cons y bs =>
      cases c with
      | nil => simp [zip3]
      | cons z cs =>
        simp only [zip3, List.length_cons, ih bs cs]
        omega

theorem zip3_map_fst {α β γ : Type} :
    ∀ (a : List α) (b : List β) (c : List γ),
      (zip3 a b c).map (fun t => t.1) = a.take (min b.length c.length) := by
  intro a
  induction a with
  | nil => intro b c; simp [zip3]
  | cons x as ih =>
    intro b c
    cases b with
    | nil => simp [zip3]
    | cons y bs =>
      cases c with
      | nil => simp [zip3]
      | cons z cs =>
        simp only [zip3, List.map_cons, ih bs cs, List.length_cons,
          Nat.succ_min_succ, List.take_succ_cons]

theorem zip3_map_snd1 {α β γ : Type} :
    ∀ (a : List α) (b : List β) (c : List γ),
      (zip3 a b c).map (fun t => t.2.1) = b.take (min a.length c.length) := by
  intro a
  induction a with
  | nil => intro b c; simp [zip3]
  | cons x as ih =>
    intro b c
    cases b with
    | nil => simp [zip3]
    | cons y bs =>
      cases c with
      | nil => simp [zip3]
      | cons z cs =>
        simp only [zip3, List.map_cons, ih bs cs, List.length_cons,
          Nat.succ_min_succ, List.take_succ_cons]

theorem zip3_map_snd2 {α β γ : Type} :
    ∀ (a : List α) (b : List β) (c : List γ),
      (zip3 a b c).map (fun t => t.2.2) = c.take (min a.length b.length) := by
  intro a
  induction a with
  | nil => intro b c; simp [zip3]
  | cons x as ih =>
    intro b c
    cases b with
    | nil => simp [zip3]
    | cons y bs =>
      cases c with
      | nil => simp [zip3]
      | cons z cs =>
        simp only [zip3, List.map_cons, ih bs cs, List.length_cons,
          Nat.succ_min_succ, List.take_succ_cons]

theorem zip3_fst_mem {α β γ : Type} {a : List α} {b : List β} {c : List γ}
    {t : α × β × γ} (h : t ∈ zip3 a b c) : t.1 ∈ a := by
  have h2 := List.mem_map_of_mem (fun t : α × β × γ => t.1) h
  rw [zip3_map_fst] at h2
  exact List.take_subset _ _ h2

theorem drawLoop_pairs (t : Table2) :
    ∀ ts : List (Sel × String × String),
      (∀ tr ∈ ts, isPairResolvable t tr.1 = true) →
      ∃ lines, drawLoop t ts = Except.ok lines ∧
        lines.map PlotLine.label = ts.map (fun tr => tr.2.1) ∧
        lines.map PlotLine.color = ts.map (fun tr => tr.2.2) ∧
        lines.map PlotLine.values = ts.map (fun tr => resolveValues t tr.1) := by
  intro ts
  induction ts with
  | nil => intro _; exact ⟨[], rfl, rfl, rfl, rfl⟩
  | cons tr rest ih =>
    intro h
    have h1 := h tr (List.mem_cons_self _ _)
    obtain ⟨lines, hd, hl, hc, hv⟩ := ih (fun x hx => h x (List.mem_cons_of_mem _ hx))
    rcases tr with ⟨s, lab, col⟩
    cases s with
    | single k => simp [isPairResolvable] at h1
    | pair g s2 =>
      simp only [isPairResolvable] at h1
      obtain ⟨v, hv2⟩ := Option.isSome_iff_exists.mp h1
      refine ⟨⟨lab, col, v⟩ :: lines, ?_, ?_, ?_, ?_⟩
      · simp only [drawLoop, selLines, hv2, Option.map_some', hd]
        rfl
      · simp only [List.map_cons, hl]
      · simp only [List.map_cons, hc]
      · simp only [List.map_cons, hv, resolveValues, hv2, Option.getD_some]

/-- Claim C8: a `plot_graph` call with eight selectors and eight labels that
all resolve against the table draws exactly eight lines, in selector order,
the i-th line carrying the i-th legend label, the i-th palette color and the
i-th selector's resolved values. -/
theorem c8_eight_series (t : Table2) (ys : List Sel) (labels : List String)
    (h1 : ys.length = 8) (h2 : labels.length = 8)
    (hres : ∀ s ∈ ys, isPairResolvable t s = true) :
    ∃ lines, plotGraph t ys labels = Except.ok lines ∧
      lines.length = 8 ∧
      lines.map PlotLine.label = labels ∧
      lines.map PlotLine.color = color_map ∧
      lines.map PlotLine.values = ys.map (resolveValues t) := by
  have hcolors : assignColors ys.length = Except.ok color_map := by
    rw [h1]
    rfl
  obtain ⟨lines, hd, hl, hc, hv⟩ := drawLoop_pairs t (zip3 ys labels color_map)
    (fun tr htr => hres tr.1 (zip3_fst_mem htr))
  have hcm : color_map.length = 8 := rfl
  refine ⟨lines, ?_, ?_, ?_, ?_, ?_⟩
  · unfold plotGraph
    rw [hcolors]
    exact hd
  · have hlen := congrArg List.length hl
    rw [List.length_map, List.length_map] at hlen
    rw [hlen, zip3_length, h1, h2, hcm]
    omega
  · rw [hl, zip3_map_snd1, h1, hcm]
    exact List.take_of_length_le (by omega)
  · rw [hc, zip3_map_snd2, h1, h2]
    exact List.take_of_length_le (by omega)
  · rw [hv,
      show (fun tr : Sel × String × String => resolveValues t tr.1)
        = (resolveValues t) ∘ (fun tr : Sel × String × String => tr.1) from rfl,
      ← List.map_map, zip3_map_fst, h2, hcm]
    rw [List.take_of_length_le (by omega)]

/-- Witness for C8: the eight series and labels of `main` against the clean
scenario table. -/
theorem c8_witness :
    (series_data.length = 8 ∧ series_labels.length = 8 ∧
      (∀ s ∈ series_data, isPairResolvable cleanEx7 s = true)) ∧
    (∃ lines, plotGraph cleanEx7 series_data series_labels = Except.ok lines ∧
      lines.length = 8 ∧
      lines.map PlotLine.label = series_labels ∧
      lines.map PlotLine.color = color_map ∧
      lines.map PlotLine.values = series_data.map (resolveValues cleanEx7)) :=
  ⟨⟨by decide, by decide, by decide⟩,
   c8_eight_series cleanEx7 series_data series_labels (by decide) (by decide) (by decide)⟩

/-- Two pair selectors for the unequal-length renderer scenario. -/
def selsW : List Sel := [Sel.pair "Low income" "Female", Sel.pair "High income" "Male"]

/-- Three labels for the unequal-length renderer scenario. -/
def labelsW : List String := ["a", "b", "c"]

/-- Claim C9: with selector and label lists of lengths at most the palette
size whose selectors all resolve, `plot_graph` raises no error and draws
exactly `min` of the two lengths lines, pairing the i-th selector with the
i-th label and i-th color; excess elements of the longer list are ignored
(the `zip` of line 48 truncates to the shortest list). -/
theorem c9_zip_truncation (t : Table2) (ys : List Sel) (labels : List String)
    (h1 : ys.length ≤ 8) (h2 : labels.length ≤ 8)
    (hres : ∀ s ∈ ys, isPairResolvable t s = true) :
    ∃ lines, plotGraph t ys labels = Except.ok lines ∧
      lines.length = min ys.length labels.length ∧
      lines.map PlotLine.label = labels.take ys.length ∧
      lines.map PlotLine.color = color_map.take (min ys.length labels.length) ∧
      lines.map PlotLine.values = (ys.take labels.length).map (resolveValues t) := by
  have hcolors : assignColors ys.length = Except.ok (color_map.take ys.length) :=
    assignColors_le h1
  obtain ⟨lines, hd, hl, hc, hv⟩ := drawLoop_pairs t (zip3 ys labels (color_map.take ys.length))
    (fun tr htr => hres tr.1 (zip3_fst_mem htr))
  have hcm : color_map.length = 8 := rfl
  have hclen : (color_map.take ys.length).length = ys.length := by
    rw [List.length_take, hcm]
    omega
  refine ⟨lines, ?_, ?_, ?_, ?_, ?_⟩
  · unfold plotGraph
    rw [hcolors]
    exact hd
  · have hlen := congrArg List.length hl
    rw [List.length_map, List.length_map] at hlen
    rw [hlen, zip3_length, hclen]
    omega
  · rw [hl, zip3_map_snd1, hclen, Nat.min_self]
  · rw [hc, zip3_map_snd2, List.take_take, List.take_eq_take, hcm]
    omega
  · rw [hv,
      show (fun tr : Sel × String × String => resolveValues t tr.1)
        = (resolveValues t) ∘ (fun tr : Sel × String × String => tr.1) from rfl,
      ← List.map_map, zip3_map_fst, hclen]
    rw [show ys.take (min labels.length ys.length) = ys.take labels.length by
      rw [List.take_eq_take]
      omega]

/-- Witness for C9: two selectors against three labels on the clean scenario
table, drawing two lines. -/
theorem c9_witness :
    (selsW.length ≤ 8 ∧ labelsW.length ≤ 8 ∧
      (∀ s ∈ selsW, isPairResolvable cleanEx7 s = true)) ∧
    (∃ lines, plotGraph cleanEx7 selsW labelsW = Except.ok lines ∧
      lines.length = min selsW.length labelsW.length ∧
      lines.map PlotLine.label = labelsW.take selsW.length ∧
      lines.map PlotLine.color = color_map.take (min selsW.length labelsW.length) ∧
      lines.map PlotLine.values = (selsW.take labelsW.length).map (resolveValues cleanEx7)) :=
  ⟨⟨by decide, by decide, by decide⟩,
   c9_zip_truncation cleanEx7 selsW labelsW (by decide) (by decide) (by decide)⟩
